import Mathlib

/-!
Verification of the Pis Yedili card-game engine.

The definitions below are a shallow embedding of the authoritative
game server (the second server variant in `src/unnamed/part_011`,
which the spec adopts as canonical), together with the client-side
rule modules it is compared against:
`src/pis-yedili/src/utils/gameLogic.ts` (namespace `GameLogic`) and
`src/pis-yedili/src/app/lobby/page.tsx` (namespace `Lobby`).

JavaScript specifics are modelled as follows: `Math.random` driven
shuffles take an explicit list of random numbers `rnd`; in-place
mutation is modelled by returning the updated state (functions that
return a success boolean in the source return `Bool × GameState`,
the state component being the possibly-mutated state, exactly as the
callers observe it); `uuid` card ids are modelled as distinct `Nat`s.
-/

inductive Suit where
  | hearts
  | diamonds
  | clubs
  | spades
deriving DecidableEq

inductive Rank where
  | rA
  | r2
  | r3
  | r4
  | r5
  | r6
  | r7
  | r8
  | r9
  | r10
  | rJ
  | rQ
  | rK
deriving DecidableEq

structure Card where
  suit : Suit
  rank : Rank
  id : Nat
deriving DecidableEq

/-- Default card used to totalise JavaScript partial accesses that are
never reached on the defined paths. -/
def defCard : Card := { suit := Suit.hearts, rank := Rank.rA, id := 0 }

inductive Direction where
  | clockwise
  | counterclockwise
deriving DecidableEq

inductive GStatus where
  | playing
  | finished
deriving DecidableEq

/-- A seated player of the part_011 game state (`handCount` mirrors
`hand.length`, `saidTek` is the one-card declaration flag). -/
structure SPlayer where
  id : Nat
  hand : List Card
  handCount : Nat
  saidTek : Bool
  isBot : Bool
  score : Nat
  roundScore : Nat
deriving DecidableEq

/-- Default player used to totalise array accesses. -/
def defPlayer : SPlayer :=
  { id := 0, hand := [], handCount := 0, saidTek := false, isBot := false,
    score := 0, roundScore := 0 }

/-- The part_011 GameState fields relevant to the game rules (timers and
cosmetic fields are not modelled). -/
structure GameState where
  players : List SPlayer
  currentPlayerIndex : Nat
  direction : Direction
  status : GStatus
  deck : List Card
  discardPile : List Card
  topCard : Option Card
  drawCount : Nat
  skipNext : Bool
  wildSuit : Option Suit
  isFirstPlay : Bool
  sevenStack : Nat
  currentRound : Nat
  maxRounds : Nat
  roundWinners : List Nat
  isGameComplete : Bool
  winner : Option Nat
deriving DecidableEq

/-- Moves submitted by clients or bots (the `type` / `playerId` / `card` /
`suit` fields of the JS move object). -/
inductive Move where
  | sayMau (playerId : Nat)
  | playCard (playerId : Nat) (card : Card)
  | drawCard (playerId : Nat)
  | chooseSuit (playerId : Nat) (suit : Suit)
deriving DecidableEq

def Move.playerId : Move → Nat
  | .sayMau pid => pid
  | .playCard pid _ => pid
  | .drawCard pid => pid
  | .chooseSuit pid _ => pid

def SUITS : List Suit := [Suit.hearts, Suit.diamonds, Suit.clubs, Suit.spades]

def RANKS : List Rank :=
  [Rank.rA, Rank.r2, Rank.r3, Rank.r4, Rank.r5, Rank.r6, Rank.r7, Rank.r8,
   Rank.r9, Rank.r10, Rank.rJ, Rank.rQ, Rank.rK]

/-- part_011 `createDeck`: one card per (suit, rank) pair; the `uuid` ids
are modelled by the position in the enumeration, which keeps them unique. -/
def createDeck : List Card :=
  ((SUITS.flatMap (fun su => RANKS.map (fun r => (su, r)))).enum).map
    (fun p => { suit := p.2.1, rank := p.2.2, id := p.1 })

/-- One swap step of the Fisher-Yates loop (`[a[i], a[j]] = [a[j], a[i]]`). -/
def swapIdx (l : List Card) (i j : Nat) : List Card :=
  match l.get? i, l.get? j with
  | some a, some b => (l.set i b).set j a
  | _, _ => l

/-- The Fisher-Yates loop body, counting the index `i` down to 1; the
random draw `Math.floor(Math.random() * (i + 1))` at index `i` is modelled
by `rnd.getD i 0 % (i + 1)`. -/
def fisherYatesAux (rnd : List Nat) (l : List Card) : Nat → List Card
  | 0 => l
  | i + 1 => fisherYatesAux rnd (swapIdx l (i + 1) (rnd.getD (i + 1) 0 % (i + 2))) i

/-- part_011 `shuffleDeck` (also the inline reshuffle loop of
`ensureDeckHasCards`, which is the same algorithm on the same copy
discipline). -/
def shuffleDeck (rnd : List Nat) (deck : List Card) : List Card :=
  fisherYatesAux rnd deck (deck.length - 1)

/-- One round-robin pass of part_011 `dealCards`: give each hand one card
popped from the end of the deck while cards remain. -/
def dealPass : List (List Card) → List Card → List (List Card) × List Card
  | [], deck => ([], deck)
  | h :: hs, deck =>
    if deck.isEmpty then
      let r := dealPass hs deck
      (h :: r.1, r.2)
    else
      let r := dealPass hs deck.dropLast
      ((h ++ [(deck.getLast?).getD defCard]) :: r.1, r.2)

def dealCardsAux : Nat → List (List Card) → List Card → List (List Card) × List Card
  | 0, hands, deck => (hands, deck)
  | k + 1, hands, deck =>
    let r := dealPass hands deck
    dealCardsAux k r.1 r.2

/-- part_011 `dealCards(deck, playerCount, cardsPerPlayer)`: the hands and
the remaining (mutated) deck. -/
def dealCards (deck : List Card) (playerCount : Nat) (cardsPerPlayer : Nat) :
    List (List Card) × List Card :=
  dealCardsAux cardsPerPlayer (List.replicate playerCount []) deck

/-- part_011 `calculatePenaltyPoints`: A = 11, K/Q/J = 10, 7/8 = 20
(the source comments this as special cards worth more), remaining numeric
ranks at face value via `parseInt`. -/
def calculatePenaltyPoints (hand : List Card) : Nat :=
  hand.foldl
    (fun total card =>
      match card.rank with
      | Rank.rA => total + 11
      | Rank.rK => total + 10
      | Rank.rQ => total + 10
      | Rank.rJ => total + 10
      | Rank.r7 => total + 20
      | Rank.r8 => total + 20
      | Rank.r2 => total + 2
      | Rank.r3 => total + 3
      | Rank.r4 => total + 4
      | Rank.r5 => total + 5
      | Rank.r6 => total + 6
      | Rank.r9 => total + 9
      | Rank.r10 => total + 10)
    0

/-- The `rules.scoring` table declared on every game state built by
part_011 `handleStartGame` (lines 2084-2090): the scoring the file itself
documents, with number cards at face value per its comment. -/
def scoringTable : Rank → Nat
  | Rank.rA => 11
  | Rank.rJ => 25
  | Rank.rQ => 10
  | Rank.rK => 10
  | Rank.r2 => 2
  | Rank.r3 => 3
  | Rank.r4 => 4
  | Rank.r5 => 5
  | Rank.r6 => 6
  | Rank.r7 => 7
  | Rank.r8 => 8
  | Rank.r9 => 9
  | Rank.r10 => 10

/-- First index in a list satisfying a predicate (`Array.prototype.find` /
`findIndex` order). -/
def findIdxP (p : α → Bool) : List α → Option Nat
  | [] => none
  | a :: as =>
    if p a then some 0
    else
      match findIdxP p as with
      | some i => some (i + 1)
      | none => none

/-- The Jack effect of part_011 `handleSpecialCardEffect`: the four suits
are paired with their multiplicities in the hand and sorted descending by
count with JavaScript's stable sort; the head of that list is the first
suit attaining the maximal count, computed here directly. -/
def mostHeldSuit (hand : List Card) : Suit :=
  let counts := SUITS.map (fun su => (su, (hand.filter (fun c => c.suit == su)).length))
  match counts with
  | [] => Suit.hearts
  | p :: ps => (ps.foldl (fun best q => if q.2 > best.2 then q else best) p).1

/-- part_011 `ensureDeckHasCards`: report whether the deck holds at least
`cardsNeeded` cards, first reshuffling all but the top card of the discard
pile into the deck when it does not; the possibly-mutated state is
returned alongside the boolean the source returns. -/
def ensureDeckHasCards (rnd : List Nat) (s : GameState) (cardsNeeded : Nat) :
    Bool × GameState :=
  if s.deck.length ≥ cardsNeeded then (true, s)
  else if s.discardPile.length > 1 then
    let cardsToShuffle := shuffleDeck rnd s.discardPile.dropLast
    let s1 := { s with
      deck := s.deck ++ cardsToShuffle,
      discardPile := (match s.topCard with
        | some t => [t]
        | none => []) }
    (decide (s1.deck.length ≥ cardsNeeded), s1)
  else (decide (s.deck.length ≥ cardsNeeded), s)

/-- The Ace effect loop of part_011 `handleSpecialCardEffect`: every
player other than the current one pops one card from the (shrinking) deck
into their hand, while cards remain. -/
def aceDrawAux : List SPlayer → Nat → Nat → List Card → List SPlayer × List Card
  | [], _, _, deck => ([], deck)
  | p :: ps, i, cpi, deck =>
    if i ≠ cpi ∧ ¬ deck.isEmpty then
      let c := (deck.getLast?).getD defCard
      let r := aceDrawAux ps (i + 1) cpi deck.dropLast
      ({ p with hand := p.hand ++ [c], handCount := p.hand.length + 1 } :: r.1, r.2)
    else
      let r := aceDrawAux ps (i + 1) cpi deck
      (p :: r.1, r.2)

/-- part_011 `handleSpecialCardEffect`: 7 escalates the seven stack and
forced-draw count, 8 arms the skip, 10 reverses, Jack immediately sets the
wild suit to the current player's most-held suit, Ace makes every other
player draw one (replenishing via `ensureDeckHasCards` first), and any
other rank clears the seven stack and forced-draw count. -/
def handleSpecialCardEffect (rnd : List Nat) (s : GameState) (card : Card) : GameState :=
  match card.rank with
  | Rank.r7 => { s with sevenStack := s.sevenStack + 1, drawCount := (s.sevenStack + 1) * 3 }
  | Rank.r8 => { s with skipNext := true }
  | Rank.r10 =>
    { s with direction := (match s.direction with
      | Direction.clockwise => Direction.counterclockwise
      | Direction.counterclockwise => Direction.clockwise) }
  | Rank.rJ =>
    let w := mostHeldSuit ((s.players.getD s.currentPlayerIndex defPlayer).hand)
    { s with wildSuit := some w }
  | Rank.rA =>
    let otherPlayersCount := s.players.length - 1
    let r := ensureDeckHasCards rnd s otherPlayersCount
    if r.1 then
      let d := aceDrawAux r.2.players 0 r.2.currentPlayerIndex r.2.deck
      { r.2 with players := d.1, deck := d.2 }
    else r.2
  | _ => { s with sevenStack := 0, drawCount := 0 }

/-- part_011 `nextPlayer`: advance the current player index (two seats if
the skip flag is set, which is consumed), respecting the direction. -/
def nextPlayer (s : GameState) : GameState :=
  let playerCount := s.players.length
  if s.skipNext then
    { s with
      skipNext := false,
      currentPlayerIndex := match s.direction with
        | Direction.clockwise => (s.currentPlayerIndex + 2) % playerCount
        | Direction.counterclockwise => (s.currentPlayerIndex + playerCount - 2) % playerCount }
  else
    { s with
      currentPlayerIndex := match s.direction with
        | Direction.clockwise => (s.currentPlayerIndex + 1) % playerCount
        | Direction.counterclockwise => (s.currentPlayerIndex + playerCount - 1) % playerCount }

/-- The draw loop of part_011 `applyMove`: pop `k` cards from the end of
the deck into the hand, skipping silently once the deck is empty. -/
def drawLoop : Nat → List Card → List Card → List Card × List Card
  | 0, hand, deck => (hand, deck)
  | k + 1, hand, deck =>
    if deck.isEmpty then drawLoop k hand deck
    else drawLoop k (hand ++ [(deck.getLast?).getD defCard]) deck.dropLast

/-- part_011 `applyMove` (lines 2507-2581): the source mutates the state
and returns a success boolean; here the mutated state is returned next to
that boolean.  The source performs no turn or legality validation here
beyond finding the player and, for a play, the card in hand (its own
comment calls it a simplified version). -/
def applyMove (rnd : List Nat) (s : GameState) (m : Move) : Bool × GameState :=
  match findIdxP (fun p => p.id == m.playerId) s.players with
  | none => (false, s)
  | some pIdx =>
    let player := s.players.getD pIdx defPlayer
    match m with
    | Move.sayMau _ =>
      if player.handCount == 1 then
        (true, { s with players := s.players.set pIdx { player with saidTek := true } })
      else (false, s)
    | Move.playCard _ card =>
      match findIdxP (fun c => c.id == card.id) player.hand with
      | none => (false, s)
      | some cardIndex =>
        let newHand := player.hand.eraseIdx cardIndex
        let s1 := { s with
          players := s.players.set pIdx { player with hand := newHand, handCount := newHand.length },
          discardPile := s.discardPile ++ [card],
          topCard := some card }
        let s2 := handleSpecialCardEffect rnd s1 card
        let s3 := if card.rank == Rank.rJ then s2 else { s2 with wildSuit := none }
        let s4 := { s3 with isFirstPlay := false }
        (true, nextPlayer s4)
    | Move.drawCard _ =>
      let cardsToDraw := if s.drawCount > 0 then s.drawCount else 1
      let r := ensureDeckHasCards rnd s cardsToDraw
      if ¬ r.1 then (false, r.2)
      else
        let p1 := r.2.players.getD pIdx defPlayer
        let d := drawLoop cardsToDraw p1.hand r.2.deck
        let s2 := { r.2 with
          players := r.2.players.set pIdx { p1 with hand := d.1, handCount := d.1.length },
          deck := d.2,
          drawCount := 0,
          sevenStack := 0 }
        (true, nextPlayer s2)
    | Move.chooseSuit _ _ => (false, s)

/-- JavaScript `x || 1` on the round counters. -/
def orOne (n : Nat) : Nat := if n == 0 then 1 else n

/-- The round-end block of part_011 `handleMakeMove` (lines 2169-2233,
duplicated verbatim in `processBotTurn`): every seat other than the winner
gets its remaining-hand penalty as `roundScore`, added to its cumulative
`score`; the round winner is recorded; if the current round has reached
`maxRounds` the overall winner is the reduce-minimum of the cumulative
scores and the game is complete.  JavaScript `reduce` without a seed
throws on an empty player list, leaving the partially updated state,
which the empty branch mirrors. -/
def finishRound (s : GameState) (winnerId : Nat) : GameState :=
  let currentRound := orOne s.currentRound
  let maxRounds := orOne s.maxRounds
  let players1 := s.players.map (fun p =>
    let roundScore := if p.id == winnerId then 0 else calculatePenaltyPoints p.hand
    { p with roundScore := roundScore, score := p.score + roundScore })
  let s1 := { s with
    players := players1,
    status := GStatus.finished,
    winner := some winnerId,
    roundWinners := s.roundWinners ++ [winnerId] }
  if currentRound ≥ maxRounds then
    match players1 with
    | [] => s1
    | q :: qs =>
      let overallWinner := qs.foldl (fun best p => if p.score < best.score then p else best) q
      { s1 with winner := some overallWinner.id, isGameComplete := true }
  else s1

/-- part_011 `handleMakeMove` core (lines 2125-2247): reject when the
mover is not the player at `currentPlayerIndex`, otherwise apply the move;
on success, if the seat at the pre-move current index has emptied its
hand, run the round-end block. -/
def handleMakeMove (rnd : List Nat) (s : GameState) (playerId : Nat) (m : Move) :
    Bool × GameState :=
  match s.players.get? s.currentPlayerIndex with
  | none => (false, s)
  | some currentPlayer =>
    if currentPlayer.id ≠ playerId then (false, s)
    else
      let r := applyMove rnd s m
      if ¬ r.1 then (false, r.2)
      else
        let moved := r.2.players.getD s.currentPlayerIndex defPlayer
        if moved.handCount == 0 then (true, finishRound r.2 moved.id)
        else (true, r.2)

/-- part_011 `getValidCardsForBot` (lines 2436-2477): the playable-card
computation used by the bot policy. -/
def getValidCardsForBot (hand : List Card) (s : GameState) : List Card :=
  if s.drawCount > 0 then hand.filter (fun c => c.rank == Rank.r7)
  else if s.isFirstPlay && s.topCard.isNone then hand.filter (fun c => c.suit == Suit.clubs)
  else
    match s.topCard with
    | none => hand
    | some top =>
      match s.wildSuit with
      | some w => hand.filter (fun c => c.suit == w || c.rank == Rank.rJ)
      | none =>
        let jacks := hand.filter (fun c => c.rank == Rank.rJ)
        let normalMatches := hand.filter (fun c => c.suit == top.suit || c.rank == top.rank)
        normalMatches.foldl
          (fun acc c => if acc.any (fun x => x.id == c.id) then acc else acc ++ [c])
          jacks

/-- Result of the client validators (`{ valid, reason? }`). -/
inductive Validation where
  | ok
  | rejected (reason : String)
deriving DecidableEq

namespace GameLogic

/-- gameLogic.ts `canPlayCard`: suit-or-rank matching, with the wild suit
(or a Jack) overriding when set, and anything allowed on an empty pile. -/
def canPlayCard (cardToPlay : Card) (topCard : Option Card) (wildSuit : Option Suit) : Bool :=
  match topCard with
  | none => true
  | some top =>
    match wildSuit with
    | some w => cardToPlay.suit == w || cardToPlay.rank == Rank.rJ
    | none => cardToPlay.suit == top.suit || cardToPlay.rank == top.rank

/-- gameLogic.ts `validateMove` (lines 98-165), over the shared game-state
shape (it reads only fields the server state also carries).  The reason
strings are the ones the source returns. -/
def validateMove (s : GameState) (m : Move) : Validation :=
  let currentPlayer := s.players.getD s.currentPlayerIndex defPlayer
  if m.playerId ≠ currentPlayer.id then Validation.rejected "Not your turn"
  else
    match m with
    | Move.playCard _ card =>
      if (currentPlayer.hand.find? (fun c => c.id == card.id)).isNone then
        Validation.rejected "You do not have this card"
      else if s.drawCount > 0 && !(card.rank == Rank.r7) then
        Validation.rejected "You must play a 7 or draw cards"
      else if ¬ canPlayCard card s.topCard s.wildSuit then
        Validation.rejected "Card cannot be played on current card"
      else Validation.ok
    | Move.drawCard _ =>
      if s.drawCount > 0 && currentPlayer.hand.any (fun c => c.rank == Rank.r7) then
        Validation.rejected "You must play a 7 or draw the accumulated cards"
      else Validation.ok
    | Move.chooseSuit _ _ =>
      if s.wildSuit.isNone
          && !((s.topCard.map (fun t => t.rank)).getD Rank.rA == Rank.rJ
                && s.topCard.isSome) then
        Validation.rejected "Can only choose suit after playing a Jack"
      else Validation.ok
    | Move.sayMau _ =>
      if currentPlayer.hand.length ≠ 2 then
        Validation.rejected "Can only say Mau when you have 2 cards"
      else Validation.ok

end GameLogic

namespace Lobby

/-- lobby page `getCardColor`. -/
def getCardColor (suit : Suit) : Bool :=
  suit == Suit.hearts || suit == Suit.diamonds

/-- lobby page `canPlayCard(cardToPlay, topCard, wildSuit, isFirstPlay?)`:
the optional fourth argument is modelled as an `Option Bool` (`none` when
a call site omits it, which JavaScript sees as `undefined`, i.e. falsy).
With no top card the clubs-only first-play rule applies only when the flag
was passed as true; matching is suit, rank or colour, with Jacks wild. -/
def canPlayCard (cardToPlay : Card) (topCard : Option Card) (wildSuit : Option Suit)
    (isFirstPlay : Option Bool) : Bool :=
  match topCard with
  | none =>
    match isFirstPlay with
    | some true => cardToPlay.suit == Suit.clubs
    | _ => true
  | some top =>
    match wildSuit with
    | some w => cardToPlay.suit == w || cardToPlay.rank == Rank.rJ
    | none =>
      if cardToPlay.rank == Rank.rJ then true
      else
        cardToPlay.suit == top.suit || cardToPlay.rank == top.rank
          || getCardColor cardToPlay.suit == getCardColor top.suit

/-- lobby page `validateMove` (lines 556-623).  Note that its PLAY_CARD
branch calls `canPlayCard(move.card, topCard, wildSuit)` without the
`isFirstPlay` argument. -/
def validateMove (s : GameState) (m : Move) : Validation :=
  let currentPlayer := s.players.getD s.currentPlayerIndex defPlayer
  if m.playerId ≠ currentPlayer.id then Validation.rejected "Not your turn"
  else
    match m with
    | Move.playCard _ card =>
      if (currentPlayer.hand.find? (fun c => c.id == card.id)).isNone then
        Validation.rejected "You do not have this card"
      else if s.drawCount > 0 && !(card.rank == Rank.r7) then
        Validation.rejected "You must play a 7 or draw cards"
      else if ¬ canPlayCard card s.topCard s.wildSuit none then
        Validation.rejected "Card cannot be played on current card"
      else Validation.ok
    | Move.drawCard _ =>
      if s.drawCount > 0 && currentPlayer.hand.any (fun c => c.rank == Rank.r7) then
        Validation.rejected "You must play a 7 or draw the accumulated cards"
      else Validation.ok
    | Move.chooseSuit _ _ =>
      if s.wildSuit.isNone
          && !((s.topCard.map (fun t => t.rank)).getD Rank.rA == Rank.rJ
                && s.topCard.isSome) then
        Validation.rejected "Can only choose suit after playing a Jack"
      else Validation.ok
    | Move.sayMau _ =>
      if currentPlayer.hand.length ≠ 1 then
        Validation.rejected "Can only say Tek when you have 1 card"
      else Validation.ok

end Lobby

/-- A seat of a room as part_011 `handleStartGame` reads it: identity,
bot flag and the cumulative score carried over from earlier rounds. -/
structure RoomPlayer where
  id : Nat
  isBot : Bool
  score : Nat
deriving DecidableEq

/-- The indexed `room.players.map((p, index) => ...)` of `handleStartGame`:
each seat is paired with the hand dealt at its index. -/
def buildPlayers : List RoomPlayer → List (List Card) → Nat → List SPlayer
  | [], _, _ => []
  | rp :: rps, hands, i =>
    let h := hands.getD i []
    { id := rp.id, hand := h, handCount := h.length, saidTek := false,
      isBot := rp.isBot, score := rp.score, roundScore := 0 }
      :: buildPlayers rps hands (i + 1)

/-- part_011 `handleStartGame` core (lines 1995-2101): shuffle a fresh
deck, deal 7 cards per seat, find the first seat holding a club (moving a
club from the deck to seat 0 if nobody holds one), and build the playing
state with an empty discard pile, no top card and the first-play flag set. -/
def createGame (rnd : List Nat) (roomPlayers : List RoomPlayer)
    (roomCurrentRound roomMaxRounds : Nat) (roomRoundWinners : List Nat) : GameState :=
  let deck0 := shuffleDeck rnd createDeck
  let dealt := dealCards deck0 roomPlayers.length 7
  let hands := dealt.1
  let deck1 := dealt.2
  let hasClubPlayer :=
    findIdxP (fun (h : List Card) => h.any (fun c => c.suit == Suit.clubs)) hands
  let fixed :=
    match hasClubPlayer with
    | some i => (hands, deck1, i)
    | none =>
      match deck1.find? (fun (c : Card) => c.suit == Suit.clubs) with
      | some clubCard =>
        (hands.set 0 ((hands.getD 0 []) ++ [clubCard]), deck1.erase clubCard, 0)
      | none => (hands, deck1, 0)
  { players := buildPlayers roomPlayers fixed.1 0,
    currentPlayerIndex := fixed.2.2,
    direction := Direction.clockwise,
    status := GStatus.playing,
    deck := fixed.2.1,
    discardPile := [],
    topCard := none,
    drawCount := 0,
    skipNext := false,
    wildSuit := none,
    isFirstPlay := true,
    sevenStack := 0,
    currentRound := orOne roomCurrentRound,
    maxRounds := orOne roomMaxRounds,
    roundWinners := roomRoundWinners,
    isGameComplete := false,
    winner := none }

namespace Orch

/-- A room as the deletion logic sees it: its seats with their
connectivity (`isConnected`). -/
structure ORoom where
  players : List (Nat × Bool)
deriving DecidableEq

/-- The orchestrator registries of part_011: the `rooms` map and the
`roomTransitions` set. -/
structure OrchState where
  rooms : List (Nat × ORoom)
  transitions : List Nat
deriving DecidableEq

def lookupRoom (st : OrchState) (rid : Nat) : Option ORoom :=
  ((st.rooms.find? (fun q => q.1 == rid)).map (fun q => q.2))

def setRoom (st : OrchState) (rid : Nat) (room : ORoom) : OrchState :=
  { st with rooms := st.rooms.map (fun q => if q.1 == rid then (rid, room) else q) }

def dropRoom (st : OrchState) (rid : Nat) : OrchState :=
  { st with rooms := st.rooms.filter (fun q => !(q.1 == rid)) }

/-- The orchestrator events that touch room lifecycle: a player leaving
(`handleLeaveRoom`), a disconnect grace timer expiring (the 5-minute
`setTimeout` of `handleDisconnect`), and a round transition starting
(`roomTransitions.add`) or completing (the `finally` delete). -/
inductive OEvent where
  | leaveRoom (rid pid : Nat)
  | disconnectTimeout (rid pid : Nat)
  | transitionStart (rid : Nat)
  | transitionEnd (rid : Nat)
deriving DecidableEq

/-- One orchestrator step.  `leaveRoom` (part_011 lines 1626-1651)
removes the player and, if the room became empty, deletes it unless the
room is in `roomTransitions` (the source returns early, but the in-place
player removal has already been applied to the object held by the map).
`disconnectTimeout` (lines 2672-2705) does the same only when the player
is still present and still marked disconnected. -/
def oStep (st : OrchState) (e : OEvent) : OrchState :=
  match e with
  | OEvent.leaveRoom rid pid =>
    match lookupRoom st rid with
    | none => st
    | some room =>
      let room1 : ORoom := { players := room.players.filter (fun q => !(q.1 == pid)) }
      if room1.players.isEmpty then
        if rid ∈ st.transitions then setRoom st rid room1
        else dropRoom st rid
      else setRoom st rid room1
  | OEvent.disconnectTimeout rid pid =>
    match lookupRoom st rid with
    | none => st
    | some room =>
      match room.players.find? (fun q => q.1 == pid) with
      | none => st
      | some q =>
        if q.2 then st
        else
          let room1 : ORoom := { players := room.players.filter (fun w => !(w.1 == pid)) }
          if room1.players.isEmpty then
            if rid ∈ st.transitions then setRoom st rid room1
            else dropRoom st rid
          else setRoom st rid room1
  | OEvent.transitionStart rid =>
    if rid ∈ st.transitions then st else { st with transitions := rid :: st.transitions }
  | OEvent.transitionEnd rid =>
    { st with transitions := st.transitions.filter (fun x => !(x == rid)) }

def oSteps (st : OrchState) (events : List OEvent) : OrchState :=
  events.foldl oStep st

/-- The room is present in the registry. -/
def roomExists (st : OrchState) (rid : Nat) : Bool :=
  st.rooms.any (fun q => q.1 == rid)

/-- An empty-room deletion trigger in the sense of the room-deletion
guard: a leave or an expiring disconnect timer. -/
def deletionTrigger : OEvent → Bool
  | OEvent.leaveRoom _ _ => true
  | OEvent.disconnectTimeout _ _ => true
  | _ => false

end Orch

/-- Total number of cards held in hands. -/
def sumHands : List SPlayer → Nat
  | [] => 0
  | p :: ps => p.hand.length + sumHands ps

/-- Draw pile plus discard pile plus all hands. -/
def totalCards (s : GameState) : Nat :=
  s.deck.length + s.discardPile.length + sumHands s.players

/-- Game states reachable from match creation by accepted operations:
an initial state built by `handleStartGame` for a room with at least two
seats (as the source enforces), any move accepted by `applyMove` (card
plays with their special effects including the Ace draw-all and the
discard-pile reshuffle, draws, declarations), and the round-end block. -/
inductive Reachable : GameState → Prop where
  | init (rnd : List Nat) (roomPlayers : List RoomPlayer)
      (cr mr : Nat) (rw : List Nat) (hn : 2 ≤ roomPlayers.length) :
      Reachable (createGame rnd roomPlayers cr mr rw)
  | step (rnd : List Nat) (s : GameState) (m : Move) (s2 : GameState)
      (hs : Reachable s) (hacc : applyMove rnd s m = (true, s2)) :
      Reachable s2
  | finish (s : GameState) (wid : Nat) (hs : Reachable s) :
      Reachable (finishRound s wid)

/-- A chain of `n` consecutive accepted rank-7 card plays (each step is an
`applyMove` acceptance of a PLAY_CARD whose card has rank 7), with no
other operation in between. -/
inductive SevenChain : GameState → Nat → GameState → Prop where
  | zero (s : GameState) : SevenChain s 0 s
  | succ {s s1 s2 : GameState} {n : Nat} (rnd : List Nat) (pid : Nat) (c : Card)
      (h : SevenChain s n s1) (h7 : c.rank = Rank.r7)
      (hacc : applyMove rnd s1 (Move.playCard pid c) = (true, s2)) :
      SevenChain s (n + 1) s2

/-- Builds a seated player with a consistent hand count. -/
def mkPlayer (id : Nat) (hand : List Card) (isBot : Bool) : SPlayer :=
  { id := id, hand := hand, handCount := hand.length, saidTek := false,
    isBot := isBot, score := 0, roundScore := 0 }

/-- A mid-game state skeleton used by the concrete test states below. -/
def baseState (players : List SPlayer) : GameState :=
  { players := players, currentPlayerIndex := 0, direction := Direction.clockwise,
    status := GStatus.playing, deck := [], discardPile := [], topCard := none,
    drawCount := 0, skipNext := false, wildSuit := none, isFirstPlay := false,
    sevenStack := 0, currentRound := 1, maxRounds := 1, roundWinners := [],
    isGameComplete := false, winner := none }

def fiveHearts : Card := { suit := Suit.hearts, rank := Rank.r5, id := 100 }
def threeHearts : Card := { suit := Suit.hearts, rank := Rank.r3, id := 101 }
def fourHearts : Card := { suit := Suit.hearts, rank := Rank.r4, id := 102 }
def sevenSpades : Card := { suit := Suit.spades, rank := Rank.r7, id := 103 }
def sevenDiamonds : Card := { suit := Suit.diamonds, rank := Rank.r7, id := 104 }
def jackDiamonds : Card := { suit := Suit.diamonds, rank := Rank.rJ, id := 105 }
def jackHearts : Card := { suit := Suit.hearts, rank := Rank.rJ, id := 106 }
def kingSpades : Card := { suit := Suit.spades, rank := Rank.rK, id := 107 }

/-- Two seats used by the reachability witness. -/
def demoRoomPlayers : List RoomPlayer :=
  [{ id := 0, isBot := false, score := 0 }, { id := 1, isBot := true, score := 0 }]

/-- A forced-draw state: a seven was played (drawCount 3), the current
player holds a non-seven. -/
def c2state : GameState :=
  { baseState [mkPlayer 0 [fiveHearts, kingSpades] false, mkPlayer 1 [threeHearts] false] with
    deck := [fourHearts],
    discardPile := [sevenDiamonds],
    topCard := some sevenDiamonds,
    drawCount := 3,
    sevenStack := 1 }

/-- A first-play state: no card has been played, the current player holds
only a non-club. -/
def c4state : GameState :=
  { baseState [mkPlayer 0 [fiveHearts] false, mkPlayer 1 [threeHearts] false] with
    isFirstPlay := true }

/-- A state whose current (human) seat is about to play a Jack while
holding two hearts besides it. -/
def c7state : GameState :=
  { baseState [mkPlayer 0 [jackDiamonds, threeHearts, fourHearts] false,
               mkPlayer 1 [kingSpades] false] with
    topCard := some fiveHearts,
    discardPile := [fiveHearts] }

/-- A second Jack-play state, this one for a bot seat on turn 1. -/
def w7state : GameState :=
  { baseState [mkPlayer 0 [threeHearts] false, mkPlayer 1 [jackHearts, kingSpades] true] with
    currentPlayerIndex := 1,
    topCard := some fiveHearts,
    discardPile := [fiveHearts] }

def w7state2 : GameState := (applyMove [] w7state (Move.playCard 1 jackHearts)).2

/-- A full 52-card state in which the forced draw of 9 cards cannot be
satisfied: the hands hold 49 cards, the deck one and the discard pile two. -/
def c8state : GameState :=
  { baseState [mkPlayer 0 (createDeck.take 24) false,
               mkPlayer 1 ((createDeck.drop 24).take 25) false] with
    deck := [createDeck.getD 49 defCard],
    discardPile := [createDeck.getD 50 defCard, createDeck.getD 51 defCard],
    topCard := some (createDeck.getD 51 defCard),
    drawCount := 9,
    sevenStack := 3 }

/-- A state whose current seat holds two cards, so its Tek declaration is
rejected. -/
def w8state : GameState :=
  baseState [mkPlayer 0 [threeHearts, fourHearts] false, mkPlayer 1 [kingSpades] false]

/-- A state whose current seat is about to stack the first seven. -/
def w3state : GameState :=
  { baseState [mkPlayer 0 [sevenSpades, fiveHearts] false, mkPlayer 1 [threeHearts] false] with
    deck := [fourHearts],
    discardPile := [sevenDiamonds],
    topCard := some sevenDiamonds }

def w3state2 : GameState := (applyMove [] w3state (Move.playCard 0 sevenSpades)).2

/-- A finished-round state: seat 0 just emptied its hand, seat 1 still
holds a five, and this is the last scheduled round. -/
def w6state : GameState :=
  { baseState [mkPlayer 0 [] false, mkPlayer 1 [fiveHearts] false] with
    currentRound := 1,
    maxRounds := 1 }

/-- A state whose current seat holds exactly one card and may declare Tek. -/
def w10state : GameState :=
  { baseState [mkPlayer 0 [fiveHearts] false, mkPlayer 1 [threeHearts, kingSpades] false] with
    deck := [fourHearts],
    discardPile := [sevenDiamonds],
    topCard := some sevenDiamonds,
    drawCount := 3,
    sevenStack := 1 }

/-- A one-room registry whose single (disconnected) seat is about to be
removed while the room is in transition. -/
def w9state : Orch.OrchState :=
  { rooms := [(1, { players := [(7, false)] })], transitions := [1] }

/-- Total length of a list of hands. -/
def sumLens : List (List Card) → Nat
  | [] => 0
  | h :: hs => h.length + sumLens hs

/-- The state left behind by the unsatisfiable forced draw on `c8state`. -/
def c8state2 : GameState := (applyMove [] c8state (Move.drawCard 0)).2

/-- C2.  With drawCount 3 pending, the authoritative server path
(`handleMakeMove` / `applyMove` in part_011) accepts a PLAY_CARD of a
non-seven by the current player, places the card on the discard pile and
even resets the forced-draw counter, while the repository's own
`validateMove` (gameLogic.ts lines 119-127) rejects exactly this move
with the must-play-seven reason — the server omitted the validation its
own comment calls for. -/
theorem c2_forced_draw_lock_code_bug :
  (handleMakeMove [] c2state 0 (Move.playCard 0 fiveHearts)).1 = true
  ∧ (handleMakeMove [] c2state 0 (Move.playCard 0 fiveHearts)).2.discardPile
      = [sevenDiamonds, fiveHearts]
  ∧ (handleMakeMove [] c2state 0 (Move.playCard 0 fiveHearts)).2.drawCount = 0
  ∧ GameLogic.validateMove c2state (Move.playCard 0 fiveHearts)
      = Validation.rejected "You must play a 7 or draw cards" := by decide

/-- C4.  In a first-play state with no top card, the lobby `validateMove`
accepts a non-club play (it calls `canPlayCard` without the `isFirstPlay`
argument), while the bot legal-card computation of part_011 excludes the
same card, so acceptance by move validation is not equivalent to the card
being a club. -/
theorem c4_first_play_clubs_code_bug :
  fiveHearts.suit ≠ Suit.clubs
  ∧ c4state.isFirstPlay = true
  ∧ c4state.topCard = none
  ∧ Lobby.validateMove c4state (Move.playCard 0 fiveHearts) = Validation.ok
  ∧ getValidCardsForBot [fiveHearts] c4state = [] := by decide

/-- C5.  The implemented `calculatePenaltyPoints` scores a Jack 10 and a
seven 20, while the `rules.scoring` table declared in the same file (and
adopted by the claim) gives a Jack 25 and numeric ranks face value. -/
theorem c5_penalty_values_code_bug :
  calculatePenaltyPoints [jackHearts] = 10
  ∧ scoringTable Rank.rJ = 25
  ∧ calculatePenaltyPoints [sevenSpades] = 20
  ∧ scoringTable Rank.r7 = 7 := by decide

/-- C7 counterexample.  A human (non-bot) seat plays a Jack; the play is
accepted and `wildSuit` is immediately set (to the most-held suit of the
remaining hand) rather than left unset pending a CHOOSE_SUIT move. -/
theorem c7_wild_suit_counterexample :
  (c7state.players.getD c7state.currentPlayerIndex defPlayer).isBot = false
  ∧ (applyMove [] c7state (Move.playCard 0 jackDiamonds)).1 = true
  ∧ (applyMove [] c7state (Move.playCard 0 jackDiamonds)).2.wildSuit
      = some Suit.hearts := by decide

/-- C8 counterexample.  A forced draw of 9 cards that cannot be satisfied
is rejected, yet `ensureDeckHasCards` has already moved the discard pile
(except its top card) into the draw pile: the state after the rejection
differs from the state before it. -/
theorem c8_rejection_mutates_counterexample :
  (applyMove [] c8state (Move.drawCard 0)).1 = false
  ∧ (applyMove [] c8state (Move.drawCard 0)).2 ≠ c8state
  ∧ c8state.deck.length = 1
  ∧ (applyMove [] c8state (Move.drawCard 0)).2.deck.length = 2 := by decide

theorem swapIdx_length (l : List Card) (i j : Nat) : (swapIdx l i j).length = l.length := by
  unfold swapIdx
  cases h1 : l.get? i <;> cases h2 : l.get? j <;> simp

theorem fisherYatesAux_length (rnd : List Nat) (n : Nat) :
    ∀ l : List Card, (fisherYatesAux rnd l n).length = l.length := by
  induction n with
  | zero => intro l; rfl
  | succ n ih =>
    intro l
    rw [fisherYatesAux, ih, swapIdx_length]

theorem shuffleDeck_length (rnd : List Nat) (d : List Card) :
    (shuffleDeck rnd d).length = d.length :=
  fisherYatesAux_length rnd (d.length - 1) d

theorem dealPass_conserve (hs : List (List Card)) :
    ∀ deck : List Card,
      sumLens (dealPass hs deck).1 + (dealPass hs deck).2.length
        = sumLens hs + deck.length := by
  induction hs with
  | nil => intro deck; simp [dealPass, sumLens]
  | cons h t ih =>
    intro deck
    by_cases hd : deck.isEmpty
    · simp only [dealPass, hd, if_pos]
      simp [sumLens]
      have := ih deck
      omega
    · simp only [dealPass, hd, if_neg, Bool.false_eq_true, not_false_iff]
      simp [sumLens]
      have := ih deck.dropLast
      have hlen : deck.dropLast.length = deck.length - 1 := List.length_dropLast deck
      have hpos : 0 < deck.length := by
        cases deck with
        | nil => simp [List.isEmpty] at hd
        | cons a as => simp
      omega

theorem dealPass_numHands (hs : List (List Card)) :
    ∀ deck : List Card, (dealPass hs deck).1.length = hs.length := by
  induction hs with
  | nil => intro deck; simp [dealPass]
  | cons h t ih =>
    intro deck
    by_cases hd : deck.isEmpty <;> simp [dealPass, hd, ih]

theorem dealCardsAux_conserve (k : Nat) :
    ∀ (hs : List (List Card)) (deck : List Card),
      sumLens (dealCardsAux k hs deck).1 + (dealCardsAux k hs deck).2.length
        = sumLens hs + deck.length := by
  induction k with
  | zero => intro hs deck; rfl
  | succ k ih =>
    intro hs deck
    rw [dealCardsAux]
    rw [ih]
    exact dealPass_conserve hs deck

theorem dealCardsAux_numHands (k : Nat) :
    ∀ (hs : List (List Card)) (deck : List Card),
      (dealCardsAux k hs deck).1.length = hs.length := by
  induction k with
  | zero => intro hs deck; rfl
  | succ k ih =>
    intro hs deck
    rw [dealCardsAux, ih, dealPass_numHands]

theorem sumLens_replicate (n : Nat) : sumLens (List.replicate n []) = 0 := by
  induction n with
  | zero => rfl
  | succ n ih => simp [List.replicate, sumLens, ih]

theorem dealCards_conserve (deck : List Card) (n k : Nat) :
    sumLens (dealCards deck n k).1 + (dealCards deck n k).2.length = deck.length := by
  unfold dealCards
  rw [dealCardsAux_conserve, sumLens_replicate]
  omega

theorem dealCards_numHands (deck : List Card) (n k : Nat) :
    (dealCards deck n k).1.length = n := by
  unfold dealCards
  rw [dealCardsAux_numHands, List.length_replicate]

theorem createDeck_length : createDeck.length = 52 := rfl

theorem sumLens_drop (hs : List (List Card)) :
    ∀ i : Nat, i < hs.length →
      sumLens (hs.drop i) = (hs.getD i []).length + sumLens (hs.drop (i + 1)) := by
  induction hs with
  | nil => intro i h; simp at h
  | cons h t ih =>
    intro i hi
    cases i with
    | zero => simp [sumLens, List.getD]
    | succ i =>
      simp only [List.drop_succ_cons, List.getD_cons_succ]
      exact ih i (by simpa using hi)

theorem sumHands_buildPlayers (rps : List RoomPlayer) :
    ∀ (hands : List (List Card)) (i : Nat), hands.length = i + rps.length →
      sumHands (buildPlayers rps hands i) = sumLens (hands.drop i) := by
  induction rps with
  | nil =>
    intro hands i hlen
    simp only [List.length_nil] at hlen
    simp only [buildPlayers, sumHands]
    rw [List.drop_eq_nil_of_le (by omega)]
    rfl
  | cons rp rps ih =>
    intro hands i hlen
    simp only [List.length_cons] at hlen
    simp only [buildPlayers, sumHands]
    rw [ih hands (i + 1) (by omega)]
    have hi : i < hands.length := by omega
    rw [sumLens_drop hands i hi]

theorem sumLens_set_zero (hs : List (List Card)) (c : Card) (h : 0 < hs.length) :
    sumLens (hs.set 0 ((hs.getD 0 []) ++ [c])) = sumLens hs + 1 := by
  cases hs with
  | nil => simp at h
  | cons a t =>
    simp only [List.set_cons_zero, List.getD_cons_zero, sumLens, List.length_append,
      List.length_cons, List.length_nil]
    omega

theorem createGame_conserve (rnd : List Nat) (rps : List RoomPlayer) (cr mr : Nat)
    (rw : List Nat) (hn : 1 ≤ rps.length) :
    totalCards (createGame rnd rps cr mr rw) = 52 := by
  have hbase :
      sumLens (dealCards (shuffleDeck rnd createDeck) rps.length 7).1
        + (dealCards (shuffleDeck rnd createDeck) rps.length 7).2.length = 52 := by
    rw [dealCards_conserve, shuffleDeck_length, createDeck_length]
  have hhands : (dealCards (shuffleDeck rnd createDeck) rps.length 7).1.length
      = rps.length := dealCards_numHands _ _ _
  rcases hfc : findIdxP (fun (h : List Card) => h.any fun c => c.suit == Suit.clubs)
      (dealCards (shuffleDeck rnd createDeck) rps.length 7).1 with _ | i
  · rcases hfd : (dealCards (shuffleDeck rnd createDeck) rps.length 7).2.find?
        (fun (c : Card) => c.suit == Suit.clubs) with _ | clubCard
    · simp only [createGame, totalCards, hfc, hfd]
      rw [sumHands_buildPlayers rps _ 0 (by omega), List.drop_zero]
      simp only [List.length_nil]
      omega
    · have hmem := List.mem_of_find?_eq_some hfd
      have herase := List.length_erase_of_mem hmem
      have hpos := List.length_pos_of_mem hmem
      simp only [createGame, totalCards, hfc, hfd]
      rw [sumHands_buildPlayers rps _ 0 (by rw [List.length_set]; omega), List.drop_zero]
      rw [sumLens_set_zero _ _ (by omega)]
      simp only [List.length_nil]
      omega
  · simp only [createGame, totalCards, hfc]
    rw [sumHands_buildPlayers rps _ 0 (by omega), List.drop_zero]
    simp only [List.length_nil]
    omega

theorem findIdxP_lt {α : Type} {p : α → Bool} :
    ∀ {l : List α} {i : Nat}, findIdxP p l = some i → i < l.length := by
  intro l
  induction l with
  | nil => intro i h; simp [findIdxP] at h
  | cons a as ih =>
    intro i h
    rw [findIdxP] at h
    by_cases ha : p a
    · rw [if_pos ha] at h
      cases h
      simp
    · rw [if_neg ha] at h
      cases hfa : findIdxP p as with
      | none => rw [hfa] at h; simp at h
      | some j =>
        rw [hfa] at h
        simp only [Option.some.injEq] at h
        have := ih hfa
        simp only [List.length_cons]
        omega

theorem findIdxP_getD {α : Type} {p : α → Bool} (d : α) :
    ∀ {l : List α} {i : Nat}, findIdxP p l = some i → p (l.getD i d) = true := by
  intro l
  induction l with
  | nil => intro i h; simp [findIdxP] at h
  | cons a as ih =>
    intro i h
    rw [findIdxP] at h
    by_cases ha : p a
    · rw [if_pos ha] at h
      cases h
      simpa using ha
    · rw [if_neg ha] at h
      cases hfa : findIdxP p as with
      | none => rw [hfa] at h; simp at h
      | some j =>
        rw [hfa] at h
        simp only [Option.some.injEq] at h
        subst h
        simpa using ih hfa

theorem sumHands_set (l : List SPlayer) :
    ∀ (i : Nat) (q : SPlayer), i < l.length →
      sumHands (l.set i q) + (l.getD i defPlayer).hand.length
        = sumHands l + q.hand.length := by
  induction l with
  | nil => intro i q h; simp at h
  | cons a t ih =>
    intro i q h
    cases i with
    | zero => simp [sumHands, List.getD]; omega
    | succ i =>
      simp only [List.set_cons_succ, List.getD_cons_succ, sumHands]
      have := ih i q (by simpa using h)
      omega

theorem eraseIdxLen (l : List Card) :
    ∀ i : Nat, i < l.length → (l.eraseIdx i).length + 1 = l.length := by
  induction l with
  | nil => intro i h; simp at h
  | cons a t ih =>
    intro i h
    cases i with
    | zero => simp [List.eraseIdx]
    | succ i =>
      simp only [List.eraseIdx_cons_succ, List.length_cons]
      have := ih i (by simpa using h)
      omega

theorem ensure_fields (rnd : List Nat) (s : GameState) (n : Nat) :
    (ensureDeckHasCards rnd s n).2.players = s.players
  ∧ (ensureDeckHasCards rnd s n).2.topCard = s.topCard
  ∧ (ensureDeckHasCards rnd s n).2.currentPlayerIndex = s.currentPlayerIndex
  ∧ (ensureDeckHasCards rnd s n).2.drawCount = s.drawCount
  ∧ (ensureDeckHasCards rnd s n).2.sevenStack = s.sevenStack
  ∧ (ensureDeckHasCards rnd s n).2.wildSuit = s.wildSuit
  ∧ (ensureDeckHasCards rnd s n).2.skipNext = s.skipNext
  ∧ (ensureDeckHasCards rnd s n).2.direction = s.direction
  ∧ (ensureDeckHasCards rnd s n).2.isFirstPlay = s.isFirstPlay := by
  unfold ensureDeckHasCards
  split
  · simp
  · split <;> simp

theorem ensure_count (rnd : List Nat) (s : GameState) (n : Nat)
    (hInv : s.topCard = none → s.discardPile = []) :
    (ensureDeckHasCards rnd s n).2.deck.length
        + (ensureDeckHasCards rnd s n).2.discardPile.length
      = s.deck.length + s.discardPile.length
  ∧ ((ensureDeckHasCards rnd s n).2.topCard = none →
      (ensureDeckHasCards rnd s n).2.discardPile = []) := by
  unfold ensureDeckHasCards
  split
  · exact ⟨rfl, hInv⟩
  · split
    · rename_i hgt
      cases ht : s.topCard with
      | none =>
        exfalso
        have := hInv ht
        rw [this] at hgt
        simp at hgt
      | some t =>
        simp only [ht]
        constructor
        · simp only [List.length_append, List.length_cons, List.length_nil]
          rw [shuffleDeck_length, List.length_dropLast]
          omega
        · simp
    · exact ⟨rfl, hInv⟩

theorem aceDraw_conserve :
    ∀ (ps : List SPlayer) (i cpi : Nat) (deck : List Card),
      sumHands (aceDrawAux ps i cpi deck).1 + (aceDrawAux ps i cpi deck).2.length
        = sumHands ps + deck.length := by
  intro ps
  induction ps with
  | nil => intro i cpi deck; simp [aceDrawAux, sumHands]
  | cons p t ih =>
    intro i cpi deck
    rw [aceDrawAux]
    by_cases hc : i ≠ cpi ∧ ¬ deck.isEmpty
    · rw [if_pos hc]
      simp only [sumHands, List.length_append, List.length_cons, List.length_nil]
      have hrec := ih (i + 1) cpi deck.dropLast
      have hlen : deck.dropLast.length = deck.length - 1 := List.length_dropLast deck
      have hpos : 0 < deck.length := by
        cases deck with
        | nil => simp [List.isEmpty] at hc
        | cons a as => simp
      omega
    · rw [if_neg hc]
      simp only [sumHands]
      have hrec := ih (i + 1) cpi deck
      omega

theorem drawLoop_conserve (k : Nat) :
    ∀ (hand deck : List Card),
      (drawLoop k hand deck).1.length + (drawLoop k hand deck).2.length
        = hand.length + deck.length := by
  induction k with
  | zero => intro hand deck; rfl
  | succ k ih =>
    intro hand deck
    rw [drawLoop]
    by_cases hd : deck.isEmpty
    · rw [if_pos hd]
      exact ih hand deck
    · rw [if_neg hd]
      have hrec := ih (hand ++ [(deck.getLast?).getD defCard]) deck.dropLast
      have hlen : deck.dropLast.length = deck.length - 1 := List.length_dropLast deck
      have hpos : 0 < deck.length := by
        cases deck with
        | nil => simp [List.isEmpty] at hd
        | cons a as => simp
      simp only [List.length_append, List.length_cons, List.length_nil] at hrec
      omega

theorem nextPlayer_fields (s : GameState) :
    (nextPlayer s).players = s.players ∧ (nextPlayer s).deck = s.deck
  ∧ (nextPlayer s).discardPile = s.discardPile ∧ (nextPlayer s).topCard = s.topCard
  ∧ (nextPlayer s).drawCount = s.drawCount ∧ (nextPlayer s).sevenStack = s.sevenStack
  ∧ (nextPlayer s).wildSuit = s.wildSuit ∧ (nextPlayer s).isFirstPlay = s.isFirstPlay := by
  unfold nextPlayer
  split <;> simp

theorem effect_conserve (rnd : List Nat) (s : GameState) (card : Card)
    (hInv : s.topCard = none → s.discardPile = []) :
    totalCards (handleSpecialCardEffect rnd s card) = totalCards s
  ∧ (handleSpecialCardEffect rnd s card).topCard = s.topCard
  ∧ ((handleSpecialCardEffect rnd s card).topCard = none →
      (handleSpecialCardEffect rnd s card).discardPile = []) := by
  unfold handleSpecialCardEffect
  cases card.rank with
  | rA =>
    simp only
    have hf := ensure_fields rnd s (s.players.length - 1)
    have hc := ensure_count rnd s (s.players.length - 1) hInv
    have hP : sumHands (ensureDeckHasCards rnd s (s.players.length - 1)).2.players
        = sumHands s.players := by rw [hf.1]
    split
    · refine ⟨?_, by simpa using hf.2.1, ?_⟩
      · simp only [totalCards]
        have hace := aceDraw_conserve
          (ensureDeckHasCards rnd s (s.players.length - 1)).2.players 0
          (ensureDeckHasCards rnd s (s.players.length - 1)).2.currentPlayerIndex
          (ensureDeckHasCards rnd s (s.players.length - 1)).2.deck
        omega
      · intro hnone
        simp only at hnone
        simp only
        exact hc.2 hnone
    · refine ⟨?_, hf.2.1, hc.2⟩
      simp only [totalCards]
      omega
  | r7 => exact ⟨by simp [totalCards], by simp, by simpa using hInv⟩
  | r8 => exact ⟨by simp [totalCards], by simp, by simpa using hInv⟩
  | r10 => exact ⟨by simp [totalCards], by simp, by simpa using hInv⟩
  | rJ => exact ⟨by simp [totalCards], by simp, by simpa using hInv⟩
  | rQ => exact ⟨by simp [totalCards], by simp, by simpa using hInv⟩
  | rK => exact ⟨by simp [totalCards], by simp, by simpa using hInv⟩
  | r2 => exact ⟨by simp [totalCards], by simp, by simpa using hInv⟩
  | r3 => exact ⟨by simp [totalCards], by simp, by simpa using hInv⟩
  | r4 => exact ⟨by simp [totalCards], by simp, by simpa using hInv⟩
  | r5 => exact ⟨by simp [totalCards], by simp, by simpa using hInv⟩
  | r6 => exact ⟨by simp [totalCards], by simp, by simpa using hInv⟩
  | r9 => exact ⟨by simp [totalCards], by simp, by simpa using hInv⟩

theorem playMid_conserve (s : GameState) (card : Card) (pIdx cIdx : Nat)
    (hlt : pIdx < s.players.length)
    (hclt : cIdx < (s.players.getD pIdx defPlayer).hand.length) :
    totalCards { s with
      players := s.players.set pIdx { s.players.getD pIdx defPlayer with
        hand := (s.players.getD pIdx defPlayer).hand.eraseIdx cIdx,
        handCount := ((s.players.getD pIdx defPlayer).hand.eraseIdx cIdx).length },
      discardPile := s.discardPile ++ [card],
      topCard := some card } = totalCards s := by
  simp only [totalCards, List.length_append, List.length_cons, List.length_nil]
  have hss := sumHands_set s.players pIdx
    { s.players.getD pIdx defPlayer with
      hand := (s.players.getD pIdx defPlayer).hand.eraseIdx cIdx,
      handCount := ((s.players.getD pIdx defPlayer).hand.eraseIdx cIdx).length } hlt
  simp only at hss
  have her := eraseIdxLen (s.players.getD pIdx defPlayer).hand cIdx hclt
  omega

theorem playTail_conserve (rnd : List Nat) (s1 : GameState) (card : Card) (b : Bool)
    (hInv1 : s1.topCard = none → s1.discardPile = []) :
    totalCards (nextPlayer { (if b = true
        then handleSpecialCardEffect rnd s1 card
        else { handleSpecialCardEffect rnd s1 card with wildSuit := none })
      with isFirstPlay := false }) = totalCards s1
  ∧ ((nextPlayer { (if b = true
        then handleSpecialCardEffect rnd s1 card
        else { handleSpecialCardEffect rnd s1 card with wildSuit := none })
      with isFirstPlay := false }).topCard = none →
      (nextPlayer { (if b = true
        then handleSpecialCardEffect rnd s1 card
        else { handleSpecialCardEffect rnd s1 card with wildSuit := none })
      with isFirstPlay := false }).discardPile = []) := by
  have heff := effect_conserve rnd s1 card hInv1
  simp only [totalCards] at heff
  by_cases hb : b = true
  · rw [if_pos hb]
    have hn := nextPlayer_fields
      { handleSpecialCardEffect rnd s1 card with isFirstPlay := false }
    simp only [totalCards, hn.1, hn.2.1, hn.2.2.1, hn.2.2.2.1]
    refine ⟨by omega, ?_⟩
    intro hnone
    exact heff.2.2 hnone
  · rw [if_neg hb]
    have hn := nextPlayer_fields
      { { handleSpecialCardEffect rnd s1 card with wildSuit := none }
        with isFirstPlay := false }
    simp only [totalCards, hn.1, hn.2.1, hn.2.2.1, hn.2.2.2.1]
    refine ⟨by omega, ?_⟩
    intro hnone
    exact heff.2.2 hnone

theorem drawResult_conserve (rnd : List Nat) (s : GameState) (pIdx k : Nat)
    (hlt : pIdx < s.players.length)
    (hInv : s.topCard = none → s.discardPile = []) :
    totalCards (nextPlayer { (ensureDeckHasCards rnd s k).2 with
      players := (ensureDeckHasCards rnd s k).2.players.set pIdx
        { (ensureDeckHasCards rnd s k).2.players.getD pIdx defPlayer with
          hand := (drawLoop k ((ensureDeckHasCards rnd s k).2.players.getD pIdx defPlayer).hand
            (ensureDeckHasCards rnd s k).2.deck).1,
          handCount := (drawLoop k
            ((ensureDeckHasCards rnd s k).2.players.getD pIdx defPlayer).hand
            (ensureDeckHasCards rnd s k).2.deck).1.length },
      deck := (drawLoop k ((ensureDeckHasCards rnd s k).2.players.getD pIdx defPlayer).hand
        (ensureDeckHasCards rnd s k).2.deck).2,
      drawCount := 0,
      sevenStack := 0 }) = totalCards s
  ∧ ((nextPlayer { (ensureDeckHasCards rnd s k).2 with
      players := (ensureDeckHasCards rnd s k).2.players.set pIdx
        { (ensureDeckHasCards rnd s k).2.players.getD pIdx defPlayer with
          hand := (drawLoop k ((ensureDeckHasCards rnd s k).2.players.getD pIdx defPlayer).hand
            (ensureDeckHasCards rnd s k).2.deck).1,
          handCount := (drawLoop k
            ((ensureDeckHasCards rnd s k).2.players.getD pIdx defPlayer).hand
            (ensureDeckHasCards rnd s k).2.deck).1.length },
      deck := (drawLoop k ((ensureDeckHasCards rnd s k).2.players.getD pIdx defPlayer).hand
        (ensureDeckHasCards rnd s k).2.deck).2,
      drawCount := 0,
      sevenStack := 0 }).topCard = none →
    (nextPlayer { (ensureDeckHasCards rnd s k).2 with
      players := (ensureDeckHasCards rnd s k).2.players.set pIdx
        { (ensureDeckHasCards rnd s k).2.players.getD pIdx defPlayer with
          hand := (drawLoop k ((ensureDeckHasCards rnd s k).2.players.getD pIdx defPlayer).hand
            (ensureDeckHasCards rnd s k).2.deck).1,
          handCount := (drawLoop k
            ((ensureDeckHasCards rnd s k).2.players.getD pIdx defPlayer).hand
            (ensureDeckHasCards rnd s k).2.deck).1.length },
      deck := (drawLoop k ((ensureDeckHasCards rnd s k).2.players.getD pIdx defPlayer).hand
        (ensureDeckHasCards rnd s k).2.deck).2,
      drawCount := 0,
      sevenStack := 0 }).discardPile = []) := by
  have hE := ensure_fields rnd s k
  have hEc := ensure_count rnd s k hInv
  have hplt : pIdx < (ensureDeckHasCards rnd s k).2.players.length := by
    rw [hE.1]; exact hlt
  have hdl := drawLoop_conserve k
    ((ensureDeckHasCards rnd s k).2.players.getD pIdx defPlayer).hand
    (ensureDeckHasCards rnd s k).2.deck
  have hss := sumHands_set (ensureDeckHasCards rnd s k).2.players pIdx
    { (ensureDeckHasCards rnd s k).2.players.getD pIdx defPlayer with
      hand := (drawLoop k ((ensureDeckHasCards rnd s k).2.players.getD pIdx defPlayer).hand
        (ensureDeckHasCards rnd s k).2.deck).1,
      handCount := (drawLoop k
        ((ensureDeckHasCards rnd s k).2.players.getD pIdx defPlayer).hand
        (ensureDeckHasCards rnd s k).2.deck).1.length } hplt
  simp only at hss
  have hP : sumHands (ensureDeckHasCards rnd s k).2.players = sumHands s.players := by
    rw [hE.1]
  constructor
  · have hn := nextPlayer_fields { (ensureDeckHasCards rnd s k).2 with
      players := (ensureDeckHasCards rnd s k).2.players.set pIdx
        { (ensureDeckHasCards rnd s k).2.players.getD pIdx defPlayer with
          hand := (drawLoop k ((ensureDeckHasCards rnd s k).2.players.getD pIdx defPlayer).hand
            (ensureDeckHasCards rnd s k).2.deck).1,
          handCount := (drawLoop k
            ((ensureDeckHasCards rnd s k).2.players.getD pIdx defPlayer).hand
            (ensureDeckHasCards rnd s k).2.deck).1.length },
      deck := (drawLoop k ((ensureDeckHasCards rnd s k).2.players.getD pIdx defPlayer).hand
        (ensureDeckHasCards rnd s k).2.deck).2,
      drawCount := 0,
      sevenStack := 0 }
    simp only [totalCards, hn.1, hn.2.1, hn.2.2.1, hn.2.2.2.1]
    omega
  · have hn := nextPlayer_fields { (ensureDeckHasCards rnd s k).2 with
      players := (ensureDeckHasCards rnd s k).2.players.set pIdx
        { (ensureDeckHasCards rnd s k).2.players.getD pIdx defPlayer with
          hand := (drawLoop k ((ensureDeckHasCards rnd s k).2.players.getD pIdx defPlayer).hand
            (ensureDeckHasCards rnd s k).2.deck).1,
          handCount := (drawLoop k
            ((ensureDeckHasCards rnd s k).2.players.getD pIdx defPlayer).hand
            (ensureDeckHasCards rnd s k).2.deck).1.length },
      deck := (drawLoop k ((ensureDeckHasCards rnd s k).2.players.getD pIdx defPlayer).hand
        (ensureDeckHasCards rnd s k).2.deck).2,
      drawCount := 0,
      sevenStack := 0 }
    rw [hn.2.2.1, hn.2.2.2.1]
    exact hEc.2

theorem applyMove_conserve (rnd : List Nat) (s : GameState) (m : Move)
    (hInv : s.topCard = none → s.discardPile = []) :
    totalCards (applyMove rnd s m).2 = totalCards s
  ∧ ((applyMove rnd s m).2.topCard = none → (applyMove rnd s m).2.discardPile = []) := by
  cases m with
  | chooseSuit pid su =>
    simp only [applyMove, Move.playerId]
    cases hf : findIdxP (fun p => p.id == pid) s.players with
    | none => exact ⟨rfl, hInv⟩
    | some pIdx => exact ⟨rfl, hInv⟩
  | sayMau pid =>
    simp only [applyMove, Move.playerId]
    cases hf : findIdxP (fun p => p.id == pid) s.players with
    | none => exact ⟨rfl, hInv⟩
    | some pIdx =>
      have hlt := findIdxP_lt hf
      dsimp only
      by_cases h1 : ((s.players.getD pIdx defPlayer).handCount == 1) = true
      · rw [if_pos h1]
        constructor
        · simp only [totalCards]
          have hss := sumHands_set s.players pIdx
            { s.players.getD pIdx defPlayer with saidTek := true } hlt
          simp only at hss
          omega
        · exact hInv
      · rw [if_neg h1]
        exact ⟨rfl, hInv⟩
  | playCard pid card =>
    simp only [applyMove, Move.playerId]
    cases hf : findIdxP (fun p => p.id == pid) s.players with
    | none => exact ⟨rfl, hInv⟩
    | some pIdx =>
      have hlt := findIdxP_lt hf
      dsimp only
      cases hc : findIdxP (fun c => c.id == card.id)
          (s.players.getD pIdx defPlayer).hand with
      | none => exact ⟨rfl, hInv⟩
      | some cIdx =>
        have hclt := findIdxP_lt hc
        dsimp only
        have hmid := playMid_conserve s card pIdx cIdx hlt hclt
        have htail := playTail_conserve rnd
          { s with
            players := s.players.set pIdx { s.players.getD pIdx defPlayer with
              hand := (s.players.getD pIdx defPlayer).hand.eraseIdx cIdx,
              handCount := ((s.players.getD pIdx defPlayer).hand.eraseIdx cIdx).length },
            discardPile := s.discardPile ++ [card],
            topCard := some card } card (card.rank == Rank.rJ) (by simp)
        exact ⟨htail.1.trans hmid, htail.2⟩
  | drawCard pid =>
    simp only [applyMove, Move.playerId]
    cases hf : findIdxP (fun p => p.id == pid) s.players with
    | none => exact ⟨rfl, hInv⟩
    | some pIdx =>
      have hlt := findIdxP_lt hf
      dsimp only
      by_cases hok : (ensureDeckHasCards rnd s
          (if s.drawCount > 0 then s.drawCount else 1)).1 = true
      · rw [if_neg (fun hco => hco hok)]
        exact drawResult_conserve rnd s pIdx
          (if s.drawCount > 0 then s.drawCount else 1) hlt hInv
      · rw [if_pos hok]
        have hE := ensure_fields rnd s (if s.drawCount > 0 then s.drawCount else 1)
        have hEc := ensure_count rnd s (if s.drawCount > 0 then s.drawCount else 1) hInv
        have hP : sumHands (ensureDeckHasCards rnd s
            (if s.drawCount > 0 then s.drawCount else 1)).2.players
            = sumHands s.players := by rw [hE.1]
        exact ⟨by simp only [totalCards]; omega, hEc.2⟩

theorem sumHands_map_hand_preserving (f : SPlayer → SPlayer)
    (hf : ∀ p, (f p).hand = p.hand) :
    ∀ l : List SPlayer, sumHands (l.map f) = sumHands l := by
  intro l
  induction l with
  | nil => rfl
  | cons a t ih => simp [sumHands, ih, hf]

theorem finishRound_conserve (s : GameState) (wid : Nat) :
    totalCards (finishRound s wid) = totalCards s
  ∧ (finishRound s wid).topCard = s.topCard
  ∧ (finishRound s wid).discardPile = s.discardPile := by
  unfold finishRound
  dsimp only
  have hmap := sumHands_map_hand_preserving
    (fun p => { p with
      score := p.score + if p.id == wid then 0 else calculatePenaltyPoints p.hand,
      roundScore := if p.id == wid then 0 else calculatePenaltyPoints p.hand })
    (fun p => rfl) s.players
  split
  · split
    · refine ⟨?_, rfl, rfl⟩
      simp only [totalCards]
      rw [hmap]
    · refine ⟨?_, rfl, rfl⟩
      simp only [totalCards]
      rw [hmap]
  · refine ⟨?_, rfl, rfl⟩
    simp only [totalCards]
    rw [hmap]

/-- The conservation invariant carried through every reachable state:
52 cards in play, and the top card is only missing while the discard pile
is empty. -/
theorem reachable_inv (s : GameState) (h : Reachable s) :
    totalCards s = 52 ∧ (s.topCard = none → s.discardPile = []) := by
  induction h with
  | init rnd rps cr mr rw hn =>
    refine ⟨createGame_conserve rnd rps cr mr rw (by omega), fun _ => rfl⟩
  | step rnd s1 m s2 hs hacc ih =>
    have hcons := applyMove_conserve rnd s1 m ih.2
    rw [hacc] at hcons
    exact ⟨hcons.1.trans ih.1, hcons.2⟩
  | finish s1 wid hs ih =>
    have hfin := finishRound_conserve s1 wid
    refine ⟨hfin.1.trans ih.1, ?_⟩
    intro hnone
    rw [hfin.2.1] at hnone
    rw [hfin.2.2]
    exact ih.2 hnone

/-- C1.  In every game state reachable from match creation by any
sequence of accepted operations (card plays with their special effects,
including the Ace draw-all and the discard reshuffle, draws, declarations
and round closure), the draw pile plus the discard pile plus all hands
hold exactly 52 cards. -/
theorem c1_card_conservation (s : GameState) (h : Reachable s) :
    s.deck.length + s.discardPile.length + sumHands s.players = 52 :=
  (reachable_inv s h).1

/-- C1 witness: the invariant applied to a concrete freshly created
two-player match. -/
theorem c1_card_conservation_witness :
    (createGame [] demoRoomPlayers 1 1 []).deck.length
      + (createGame [] demoRoomPlayers 1 1 []).discardPile.length
      + sumHands (createGame [] demoRoomPlayers 1 1 []).players = 52 :=
  c1_card_conservation (createGame [] demoRoomPlayers 1 1 [])
    (Reachable.init [] demoRoomPlayers 1 1 [] (by decide))

theorem nextPlayer_players (t : GameState) : (nextPlayer t).players = t.players :=
  (nextPlayer_fields t).1

theorem nextPlayer_deck (t : GameState) : (nextPlayer t).deck = t.deck :=
  (nextPlayer_fields t).2.1

theorem nextPlayer_discardPile (t : GameState) :
    (nextPlayer t).discardPile = t.discardPile :=
  (nextPlayer_fields t).2.2.1

theorem nextPlayer_topCard (t : GameState) : (nextPlayer t).topCard = t.topCard :=
  (nextPlayer_fields t).2.2.2.1

theorem nextPlayer_drawCount (t : GameState) : (nextPlayer t).drawCount = t.drawCount :=
  (nextPlayer_fields t).2.2.2.2.1

theorem nextPlayer_sevenStack (t : GameState) : (nextPlayer t).sevenStack = t.sevenStack :=
  (nextPlayer_fields t).2.2.2.2.2.1

theorem nextPlayer_wildSuit (t : GameState) : (nextPlayer t).wildSuit = t.wildSuit :=
  (nextPlayer_fields t).2.2.2.2.2.2.1

theorem nextPlayer_isFirstPlay (t : GameState) :
    (nextPlayer t).isFirstPlay = t.isFirstPlay :=
  (nextPlayer_fields t).2.2.2.2.2.2.2

/-- An accepted play of a rank-7 card increments the seven stack and sets
the forced-draw count to three times the new stack. -/
theorem play7_effect (rnd : List Nat) (s : GameState) (pid : Nat) (c : Card)
    (s2 : GameState) (h7 : c.rank = Rank.r7)
    (hacc : applyMove rnd s (Move.playCard pid c) = (true, s2)) :
    s2.sevenStack = s.sevenStack + 1 ∧ s2.drawCount = (s.sevenStack + 1) * 3 := by
  rw [applyMove] at hacc
  simp only [Move.playerId] at hacc
  cases hf : findIdxP (fun p => p.id == pid) s.players with
  | none => rw [hf] at hacc; simp at hacc
  | some pIdx =>
    rw [hf] at hacc
    dsimp only at hacc
    cases hc : findIdxP (fun c2 => c2.id == c.id)
        (s.players.getD pIdx defPlayer).hand with
    | none => rw [hc] at hacc; simp at hacc
    | some cIdx =>
      rw [hc] at hacc
      dsimp only at hacc
      have hj : (c.rank == Rank.rJ) = false := by rw [h7]; rfl
      rw [hj] at hacc
      simp only [Bool.false_eq_true, if_false, Prod.mk.injEq, true_and] at hacc
      subst hacc
      refine ⟨?_, ?_⟩
      · simp only [nextPlayer_sevenStack]
        simp only [handleSpecialCardEffect, h7]
      · simp only [nextPlayer_drawCount]
        simp only [handleSpecialCardEffect, h7]

/-- Along a chain of accepted seven plays the seven stack grows by one per
play. -/
theorem sevenChain_stack (s : GameState) (n : Nat) (s2 : GameState)
    (h : SevenChain s n s2) : s2.sevenStack = s.sevenStack + n := by
  induction h with
  | zero => rfl
  | succ rnd pid c hch h7 hacc ih =>
    rename_i s1 s3 n1
    have := (play7_effect rnd _ pid c _ h7 hacc).1
    omega

/-- C3.  Starting with no stacked sevens and no pending forced draw,
N >= 1 consecutive accepted plays of rank-7 cards (with no intervening
draw) leave drawCount equal to 3 x N: each seven play increments
sevenStack and sets drawCount to sevenStack times three. -/
theorem c3_seven_stacking (s s2 : GameState) (n : Nat)
    (hchain : SevenChain s n s2) (hn : 1 ≤ n)
    (h0 : s.sevenStack = 0) (_h0d : s.drawCount = 0) :
    s2.drawCount = 3 * n := by
  cases hchain with
  | zero => omega
  | succ rnd pid c hch h7 hacc =>
    rename_i s1 n1
    have hstack := sevenChain_stack s n1 s1 hch
    have heff := play7_effect rnd s1 pid c s2 h7 hacc
    rw [heff.2, hstack, h0]
    ring

/-- C3 witness: one accepted seven play from a clean state yields
drawCount 3. -/
theorem c3_seven_stacking_witness : w3state2.drawCount = 3 * 1 :=
  c3_seven_stacking w3state w3state2 1
    (SevenChain.succ [] 0 sevenSpades (SevenChain.zero w3state) (by decide)
      (by decide))
    (by decide) (by decide) (by decide)

/-- The JavaScript `reduce` minimum: the fold returns an element of the
candidates whose score is minimal among the seed and the list. -/
theorem foldl_min_spec (qs : List SPlayer) :
    ∀ b : SPlayer,
      (qs.foldl (fun best p => if p.score < best.score then p else best) b ∈ b :: qs)
      ∧ ∀ q ∈ b :: qs,
          (qs.foldl (fun best p => if p.score < best.score then p else best) b).score
            ≤ q.score := by
  induction qs with
  | nil =>
    intro b
    refine ⟨by simp, ?_⟩
    intro q hq
    simp only [List.foldl_nil]
    simp only [List.mem_cons, List.not_mem_nil, or_false] at hq
    subst hq
    exact Nat.le_refl _
  | cons p t ih =>
    intro b
    simp only [List.foldl_cons]
    have hih := ih (if p.score < b.score then p else b)
    have hpick_le_b : (if p.score < b.score then p else b).score ≤ b.score := by
      by_cases hlt : p.score < b.score
      · rw [if_pos hlt]; omega
      · rw [if_neg hlt]
    have hpick_le_p : (if p.score < b.score then p else b).score ≤ p.score := by
      by_cases hlt : p.score < b.score
      · rw [if_pos hlt]
      · rw [if_neg hlt]; omega
    constructor
    · rcases (List.mem_cons).1 hih.1 with heq | hmem
      · rw [heq]
        by_cases hlt : p.score < b.score
        · rw [if_pos hlt]
          exact List.mem_cons_of_mem _ (List.mem_cons_self _ _)
        · rw [if_neg hlt]
          exact List.mem_cons_self _ _
      · exact List.mem_cons_of_mem _ (List.mem_cons_of_mem _ hmem)
    · intro q hq
      have hrp := hih.2 _ (List.mem_cons_self _ _)
      rcases (List.mem_cons).1 hq with heq | hq2
      · subst heq; omega
      · rcases (List.mem_cons).1 hq2 with heq2 | hq3
        · subst heq2; omega
        · exact hih.2 _ (List.mem_cons_of_mem _ hq3)

/-- C6.  When a round ends while the current round has reached
`maxRounds`, the round-end block sets `isGameComplete` and records as
match winner a seat whose cumulative score is minimal over all seats. -/
theorem c6_game_complete_min_winner (s : GameState) (wid : Nat)
    (hne : s.players ≠ [])
    (hlast : orOne s.maxRounds ≤ orOne s.currentRound) :
    (finishRound s wid).isGameComplete = true
  ∧ ∃ p, p ∈ (finishRound s wid).players ∧ (finishRound s wid).winner = some p.id
      ∧ ∀ q ∈ (finishRound s wid).players, p.score ≤ q.score := by
  unfold finishRound
  dsimp only
  rw [if_pos (show orOne s.currentRound ≥ orOne s.maxRounds from hlast)]
  cases hm : s.players.map (fun p =>
      { p with
        score := p.score + if p.id == wid then 0 else calculatePenaltyPoints p.hand,
        roundScore := if p.id == wid then 0 else calculatePenaltyPoints p.hand }) with
  | nil =>
    exact absurd (List.map_eq_nil_iff.mp hm) hne
  | cons q qs =>
    refine ⟨rfl,
      qs.foldl (fun best p => if p.score < best.score then p else best) q,
      ?_, rfl, ?_⟩
    · exact (foldl_min_spec qs q).1
    · intro q2 hq2
      exact (foldl_min_spec qs q).2 q2 hq2

/-- C6 witness: a two-seat match in its final round; the seat that went
out has score 0 and is recorded as overall winner with the game marked
complete. -/
theorem c6_game_complete_min_winner_witness :
    (finishRound w6state 0).isGameComplete = true
  ∧ ∃ p, p ∈ (finishRound w6state 0).players
      ∧ (finishRound w6state 0).winner = some p.id
      ∧ ∀ q ∈ (finishRound w6state 0).players, p.score ≤ q.score :=
  c6_game_complete_min_winner w6state 0 (by decide) (by decide)

/-- C7 amended.  After any accepted PLAY_CARD by the on-turn seat (human
or bot alike): if the card is a Jack, `wildSuit` is immediately set to
the most-held suit of that seat's remaining hand (no CHOOSE_SUIT follow-up
is awaited); for any non-Jack card, `wildSuit` is null afterwards. -/
theorem c7_wild_suit_amended (rnd : List Nat) (s : GameState) (pid : Nat) (c : Card)
    (s2 : GameState)
    (hturn : findIdxP (fun p => p.id == pid) s.players = some s.currentPlayerIndex)
    (hacc : applyMove rnd s (Move.playCard pid c) = (true, s2)) :
    s2.wildSuit = if c.rank = Rank.rJ
      then some (mostHeldSuit ((s2.players.getD s.currentPlayerIndex defPlayer).hand))
      else none := by
  rw [applyMove] at hacc
  simp only [Move.playerId] at hacc
  rw [hturn] at hacc
  dsimp only at hacc
  cases hc : findIdxP (fun c2 => c2.id == c.id)
      (s.players.getD s.currentPlayerIndex defPlayer).hand with
  | none => rw [hc] at hacc; simp at hacc
  | some cIdx =>
    rw [hc] at hacc
    dsimp only at hacc
    by_cases hj : c.rank = Rank.rJ
    · have hjb : (c.rank == Rank.rJ) = true := by rw [hj]; rfl
      rw [hjb] at hacc
      simp only [if_true, Prod.mk.injEq, true_and] at hacc
      subst hacc
      rw [if_pos hj]
      rw [nextPlayer_wildSuit, nextPlayer_players]
      simp only [handleSpecialCardEffect, hj]
    · have hjb : (c.rank == Rank.rJ) = false := beq_eq_false_iff_ne.mpr hj
      rw [hjb] at hacc
      simp only [Bool.false_eq_true, if_false, Prod.mk.injEq, true_and] at hacc
      subst hacc
      rw [if_neg hj]
      rw [nextPlayer_wildSuit]

/-- C7 amended witness: a bot seat on turn plays a Jack and the wild suit
is immediately its most-held suit. -/
theorem c7_wild_suit_amended_witness :
    w7state2.wildSuit = if jackHearts.rank = Rank.rJ
      then some (mostHeldSuit
        ((w7state2.players.getD w7state.currentPlayerIndex defPlayer).hand))
      else none :=
  c7_wild_suit_amended [] w7state 1 jackHearts w7state2 (by decide) (by decide)

/-- C8 amended.  A rejected move leaves `currentPlayerIndex`, every
seat (hence every hand), `drawCount` and `sevenStack` unchanged, and
preserves the combined number of cards in the draw and discard piles;
however a forced draw that cannot be satisfied may first move cards from
the discard pile into the draw pile (the `ensureDeckHasCards` reshuffle)
before being rejected, so the two piles individually may change. -/
theorem c8_rejection_frame (rnd : List Nat) (s s2 : GameState) (m : Move)
    (htc : s.topCard = none → s.discardPile = [])
    (hrej : applyMove rnd s m = (false, s2)) :
    s2.currentPlayerIndex = s.currentPlayerIndex ∧ s2.players = s.players
  ∧ s2.drawCount = s.drawCount ∧ s2.sevenStack = s.sevenStack
  ∧ s2.deck.length + s2.discardPile.length
      = s.deck.length + s.discardPile.length := by
  cases m with
  | chooseSuit pid su =>
    rw [applyMove] at hrej
    simp only [Move.playerId] at hrej
    cases hf : findIdxP (fun p => p.id == pid) s.players with
    | none =>
      rw [hf] at hrej
      dsimp only at hrej
      simp only [Prod.mk.injEq, true_and] at hrej
      subst hrej
      exact ⟨rfl, rfl, rfl, rfl, rfl⟩
    | some pIdx =>
      rw [hf] at hrej
      dsimp only at hrej
      simp only [Prod.mk.injEq, true_and] at hrej
      subst hrej
      exact ⟨rfl, rfl, rfl, rfl, rfl⟩
  | sayMau pid =>
    rw [applyMove] at hrej
    simp only [Move.playerId] at hrej
    cases hf : findIdxP (fun p => p.id == pid) s.players with
    | none =>
      rw [hf] at hrej
      dsimp only at hrej
      simp only [Prod.mk.injEq, true_and] at hrej
      subst hrej
      exact ⟨rfl, rfl, rfl, rfl, rfl⟩
    | some pIdx =>
      rw [hf] at hrej
      dsimp only at hrej
      by_cases h1 : ((s.players.getD pIdx defPlayer).handCount == 1) = true
      · rw [if_pos h1] at hrej
        simp at hrej
      · rw [if_neg h1] at hrej
        simp only [Prod.mk.injEq, true_and] at hrej
        subst hrej
        exact ⟨rfl, rfl, rfl, rfl, rfl⟩
  | playCard pid card =>
    rw [applyMove] at hrej
    simp only [Move.playerId] at hrej
    cases hf : findIdxP (fun p => p.id == pid) s.players with
    | none =>
      rw [hf] at hrej
      dsimp only at hrej
      simp only [Prod.mk.injEq, true_and] at hrej
      subst hrej
      exact ⟨rfl, rfl, rfl, rfl, rfl⟩
    | some pIdx =>
      rw [hf] at hrej
      dsimp only at hrej
      cases hc : findIdxP (fun c2 => c2.id == card.id)
          (s.players.getD pIdx defPlayer).hand with
      | none =>
        rw [hc] at hrej
        dsimp only at hrej
        simp only [Prod.mk.injEq, true_and] at hrej
        subst hrej
        exact ⟨rfl, rfl, rfl, rfl, rfl⟩
      | some cIdx =>
        rw [hc] at hrej
        dsimp only at hrej
        simp at hrej
  | drawCard pid =>
    rw [applyMove] at hrej
    simp only [Move.playerId] at hrej
    cases hf : findIdxP (fun p => p.id == pid) s.players with
    | none =>
      rw [hf] at hrej
      dsimp only at hrej
      simp only [Prod.mk.injEq, true_and] at hrej
      subst hrej
      exact ⟨rfl, rfl, rfl, rfl, rfl⟩
    | some pIdx =>
      rw [hf] at hrej
      dsimp only at hrej
      by_cases hok : (ensureDeckHasCards rnd s
          (if s.drawCount > 0 then s.drawCount else 1)).1 = true
      · rw [if_neg (fun hco => hco hok)] at hrej
        simp at hrej
      · rw [if_pos hok] at hrej
        simp only [Prod.mk.injEq, true_and] at hrej
        subst hrej
        have hE := ensure_fields rnd s (if s.drawCount > 0 then s.drawCount else 1)
        have hEc := ensure_count rnd s (if s.drawCount > 0 then s.drawCount else 1) htc
        exact ⟨hE.2.2.1, hE.1, hE.2.2.2.1, hE.2.2.2.2.1, hEc.1⟩

/-- C8 amended witness: the unsatisfiable forced draw on the concrete
52-card state is rejected with hands, turn and counters untouched and the
combined pile size preserved. -/
theorem c8_rejection_frame_witness :
    c8state2.currentPlayerIndex = c8state.currentPlayerIndex
  ∧ c8state2.players = c8state.players
  ∧ c8state2.drawCount = c8state.drawCount
  ∧ c8state2.sevenStack = c8state.sevenStack
  ∧ c8state2.deck.length + c8state2.discardPile.length
      = c8state.deck.length + c8state.discardPile.length :=
  c8_rejection_frame [] c8state c8state2 (Move.drawCard 0) (by decide) (by decide)

/-- C10.  For the on-turn player holding exactly one card, a SAY_MAU
(declare Tek) move succeeds and produces exactly the old state with only
that seat's `saidTek` flag set: the turn index, deck, discard pile,
forced-draw count and seven stack are untouched, so the declaration does
not consume the turn. -/
theorem c10_say_tek_frame (rnd : List Nat) (s : GameState) (pid : Nat)
    (hturn : findIdxP (fun p => p.id == pid) s.players = some s.currentPlayerIndex)
    (_hhand : (s.players.getD s.currentPlayerIndex defPlayer).hand.length = 1)
    (hcount : (s.players.getD s.currentPlayerIndex defPlayer).handCount = 1) :
    applyMove rnd s (Move.sayMau pid)
      = (true,
          { s with
            players := s.players.set s.currentPlayerIndex
              ({ s.players.getD s.currentPlayerIndex defPlayer with saidTek := true }) })
  ∧ (applyMove rnd s (Move.sayMau pid)).2.currentPlayerIndex = s.currentPlayerIndex
  ∧ (applyMove rnd s (Move.sayMau pid)).2.deck = s.deck
  ∧ (applyMove rnd s (Move.sayMau pid)).2.discardPile = s.discardPile
  ∧ (applyMove rnd s (Move.sayMau pid)).2.drawCount = s.drawCount
  ∧ (applyMove rnd s (Move.sayMau pid)).2.sevenStack = s.sevenStack := by
  have hmain : applyMove rnd s (Move.sayMau pid)
      = (true,
          { s with
            players := s.players.set s.currentPlayerIndex
              ({ s.players.getD s.currentPlayerIndex defPlayer with saidTek := true }) }) := by
    rw [applyMove]
    simp only [Move.playerId]
    rw [hturn]
    dsimp only
    rw [if_pos (show ((s.players.getD s.currentPlayerIndex defPlayer).handCount == 1)
      = true by rw [hcount]; rfl)]
  refine ⟨hmain, ?_, ?_, ?_, ?_, ?_⟩ <;> rw [hmain]

/-- C10 witness: the concrete one-card seat declares Tek; the resulting
state differs only in that flag. -/
theorem c10_say_tek_frame_witness :
    applyMove [] w10state (Move.sayMau 0)
      = (true,
          { w10state with
            players := w10state.players.set w10state.currentPlayerIndex
              ({ w10state.players.getD w10state.currentPlayerIndex defPlayer
                  with saidTek := true }) })
  ∧ (applyMove [] w10state (Move.sayMau 0)).2.currentPlayerIndex
      = w10state.currentPlayerIndex
  ∧ (applyMove [] w10state (Move.sayMau 0)).2.deck = w10state.deck
  ∧ (applyMove [] w10state (Move.sayMau 0)).2.discardPile = w10state.discardPile
  ∧ (applyMove [] w10state (Move.sayMau 0)).2.drawCount = w10state.drawCount
  ∧ (applyMove [] w10state (Move.sayMau 0)).2.sevenStack = w10state.sevenStack :=
  c10_say_tek_frame [] w10state 0 (by decide) (by decide) (by decide)

theorem any_map_keyEq (l : List (Nat × Orch.ORoom)) (r rid : Nat) (room : Orch.ORoom) :
    (l.map (fun q => if q.1 == r then (r, room) else q)).any (fun q => q.1 == rid)
      = l.any (fun q => q.1 == rid) := by
  induction l with
  | nil => rfl
  | cons a t ih =>
    simp only [List.map_cons, List.any_cons, ih]
    by_cases h : (a.1 == r) = true
    · rw [if_pos h]
      have ha : a.1 = r := eq_of_beq h
      rw [← ha]
    · rw [if_neg h]

theorem roomExists_setRoom (st : Orch.OrchState) (r : Nat) (room : Orch.ORoom)
    (rid : Nat) :
    Orch.roomExists (Orch.setRoom st r room) rid = Orch.roomExists st rid := by
  unfold Orch.roomExists Orch.setRoom
  exact any_map_keyEq st.rooms r rid room

theorem any_filter_keyNe (l : List (Nat × Orch.ORoom)) (r rid : Nat) (hne : r ≠ rid) :
    (l.filter (fun q => !(q.1 == r))).any (fun q => q.1 == rid)
      = l.any (fun q => q.1 == rid) := by
  induction l with
  | nil => rfl
  | cons a t ih =>
    by_cases h : (a.1 == r) = true
    · have ha : a.1 = r := eq_of_beq h
      have hnr : (a.1 == rid) = false := by
        rw [ha]
        exact beq_eq_false_iff_ne.mpr hne
      simp only [List.filter_cons, h, Bool.not_true, Bool.false_eq_true, if_false,
        List.any_cons, hnr, Bool.false_or, ih]
    · have hb : (!(a.1 == r)) = true := by
        cases hbe : (a.1 == r) with
        | true => exact absurd hbe h
        | false => rfl
      simp only [List.filter_cons, hb, if_true, List.any_cons, ih]

theorem roomExists_dropRoom_ne (st : Orch.OrchState) (r rid : Nat) (hne : r ≠ rid) :
    Orch.roomExists (Orch.dropRoom st r) rid = Orch.roomExists st rid := by
  unfold Orch.roomExists Orch.dropRoom
  exact any_filter_keyNe st.rooms r rid hne

/-- A deletion-trigger event (leave or disconnect timeout) never removes
a room that is in transition, and never touches the transition set. -/
theorem oStep_keeps_room (st : Orch.OrchState) (e : Orch.OEvent) (rid : Nat)
    (ht : rid ∈ st.transitions) (hr : Orch.roomExists st rid = true)
    (he : Orch.deletionTrigger e = true) :
    Orch.roomExists (Orch.oStep st e) rid = true
  ∧ rid ∈ (Orch.oStep st e).transitions := by
  cases e with
  | transitionStart r => simp [Orch.deletionTrigger] at he
  | transitionEnd r => simp [Orch.deletionTrigger] at he
  | leaveRoom r pid =>
    rw [Orch.oStep]
    cases hlook : Orch.lookupRoom st r with
    | none => exact ⟨hr, ht⟩
    | some room =>
      dsimp only
      by_cases hemp : ({ players := room.players.filter (fun q => !(q.1 == pid)) }
          : Orch.ORoom).players.isEmpty = true
      · rw [if_pos hemp]
        by_cases hin : r ∈ st.transitions
        · rw [if_pos hin]
          exact ⟨by rw [roomExists_setRoom]; exact hr, ht⟩
        · rw [if_neg hin]
          have hne : r ≠ rid := fun h => hin (h ▸ ht)
          exact ⟨by rw [roomExists_dropRoom_ne st r rid hne]; exact hr, ht⟩
      · rw [if_neg hemp]
        exact ⟨by rw [roomExists_setRoom]; exact hr, ht⟩
  | disconnectTimeout r pid =>
    rw [Orch.oStep]
    cases hlook : Orch.lookupRoom st r with
    | none => exact ⟨hr, ht⟩
    | some room =>
      dsimp only
      cases hfind : room.players.find? (fun q => q.1 == pid) with
      | none => exact ⟨hr, ht⟩
      | some q =>
        dsimp only
        by_cases hconn : q.2 = true
        · rw [if_pos hconn]
          exact ⟨hr, ht⟩
        · rw [if_neg hconn]
          by_cases hemp : ({ players := room.players.filter (fun w => !(w.1 == pid)) }
              : Orch.ORoom).players.isEmpty = true
          · rw [if_pos hemp]
            by_cases hin : r ∈ st.transitions
            · rw [if_pos hin]
              exact ⟨by rw [roomExists_setRoom]; exact hr, ht⟩
            · rw [if_neg hin]
              have hne : r ≠ rid := fun h => hin (h ▸ ht)
              exact ⟨by rw [roomExists_dropRoom_ne st r rid hne]; exact hr, ht⟩
          · rw [if_neg hemp]
            exact ⟨by rw [roomExists_setRoom]; exact hr, ht⟩

theorem oSteps_keep_room (events : List Orch.OEvent) :
    ∀ (st : Orch.OrchState) (rid : Nat), rid ∈ st.transitions →
      Orch.roomExists st rid = true →
      (∀ e ∈ events, Orch.deletionTrigger e = true) →
      Orch.roomExists (Orch.oSteps st events) rid = true
      ∧ rid ∈ (Orch.oSteps st events).transitions := by
  induction events with
  | nil => intro st rid ht hr _; exact ⟨hr, ht⟩
  | cons e es ih =>
    intro st rid ht hr he
    have hstep := oStep_keeps_room st e rid ht hr (he e (List.mem_cons_self _ _))
    have hrest := ih (Orch.oStep st e) rid hstep.2 hstep.1
      (fun e2 he2 => he e2 (List.mem_cons_of_mem _ he2))
    simpa [Orch.oSteps, List.foldl_cons] using hrest

/-- C9.  While a room is marked in transition, any sequence of
empty-room deletion triggers (players leaving, disconnect timers
expiring, for any room or player) leaves the room in the registry, and
it is still there after the transition-complete step that lifts the
protection. -/
theorem c9_room_deletion_guard (st : Orch.OrchState) (rid : Nat)
    (events : List Orch.OEvent)
    (hr : Orch.roomExists st rid = true) (ht : rid ∈ st.transitions)
    (he : ∀ e ∈ events, Orch.deletionTrigger e = true) :
    Orch.roomExists (Orch.oSteps st events) rid = true
  ∧ Orch.roomExists
      (Orch.oStep (Orch.oSteps st events) (Orch.OEvent.transitionEnd rid)) rid
      = true := by
  have h := oSteps_keep_room events st rid ht hr he
  exact ⟨h.1, h.1⟩

/-- C9 witness: a room in transition whose only (disconnected) seat
leaves and times out; the room survives both and the transition end. -/
theorem c9_room_deletion_guard_witness :
    Orch.roomExists (Orch.oSteps w9state
        [Orch.OEvent.leaveRoom 1 7, Orch.OEvent.disconnectTimeout 1 7]) 1 = true
  ∧ Orch.roomExists (Orch.oStep (Orch.oSteps w9state
        [Orch.OEvent.leaveRoom 1 7, Orch.OEvent.disconnectTimeout 1 7])
      (Orch.OEvent.transitionEnd 1)) 1 = true :=
  c9_room_deletion_guard w9state 1
    [Orch.OEvent.leaveRoom 1 7, Orch.OEvent.disconnectTimeout 1 7]
    (by decide) (by decide) (by decide)
